import Mathlib

set_option maxRecDepth 100000

/-!
Verification development for the nitric CLI core (runtime variants,
container-engine variants, launch options).

The Go source is embedded shallowly:
  * strings/path helpers from the Go standard library are translated at the
    character-list level with Unix semantics (path separator is the slash);
  * methods become functions taking the receiver structure as first argument;
  * fallible Go functions returning (T, error) become Except String T;
  * environment-dependent collaborators (os.Getwd, utils.GoModule,
    utils.GoPath, the docker native-API engine) are passed in as explicit
    values, so every definition stays executable.
Definitions marked with a doc comment starting with the words Modelled from
the spec embed repository code that is referenced by the sources but not
available; they follow the specification text.
-/

/-! ## Go standard-library string primitives -/

/-- strings.HasPrefix over character lists: first argument is the string,
second the candidate leading segment. -/
def hasPrefCL : List Char → List Char → Bool
  | _, [] => true
  | [], _ :: _ => false
  | c :: cs, p :: ps => c = p && hasPrefCL cs ps

/-- strings.HasPrefix. -/
def strHasPre (s pre : String) : Bool := hasPrefCL s.data pre.data

/-- Scan used by strings.Contains: does the needle occur at some position? -/
def subScan : List Char → List Char → Bool
  | [], sub => sub.isEmpty
  | c :: rest, sub => hasPrefCL (c :: rest) sub || subScan rest sub

/-- strings.Contains. -/
def goContains (s sub : String) : Bool := subScan s.data sub.data

/-- Core of strings.Replace with n = 1 and a non-empty pattern: replace the
leftmost occurrence of old by new. -/
def replFirstCL : List Char → List Char → List Char → List Char
  | [], _, _ => []
  | c :: rest, old, new =>
    if hasPrefCL (c :: rest) old then new ++ (c :: rest).drop old.length
    else c :: replFirstCL rest old new

/-- strings.Replace(s, old, new, 1): with an empty old the single replacement
is inserted before the first character, otherwise the leftmost occurrence of
old is replaced. -/
def goReplaceFirst (s old new : String) : String :=
  if old = "" then new ++ s
  else String.mk (replFirstCL s.data old.data new.data)

/-- strings.Join(lines, newline), as used when a recipe is written out. -/
def joinNL : List String → String
  | [] => ""
  | [l] => l
  | l :: l2 :: rest => l ++ "\n" ++ joinNL (l2 :: rest)

/-- strings.Join with a single space, used for RUN statements. -/
def joinSp : List String → String
  | [] => ""
  | [w] => w
  | w :: w2 :: rest => w ++ " " ++ joinSp (w2 :: rest)

/-- fmt.Sprint over three string operands: operands are concatenated and no
space is inserted between adjacent string operands, so a format verb in the
first operand is NOT interpreted. -/
def goSprint3 (a b c : String) : String := a ++ b ++ c

/-- fmt.Sprintf with the %t verb. -/
def goFormatBool (b : Bool) : String := if b then "true" else "false"

/-- strings.ToLower restricted to ASCII case mapping, which is all the image
tags exercise. -/
def goToLower (s : String) : String := String.mk (s.data.map Char.toLower)

/-! ## Go path/filepath, Unix rules

filepath.Clean is element-based: the path splits at slashes, empty and dot
elements are dropped, and a dotdot element pops the latest element unless the
stack is empty (where it is kept for a relative path and dropped for a rooted
one) or its top is itself a dotdot.  The functions below implement exactly
that element processing; the stack lists are in most-recent-first order and
are reversed for printing. -/

/-- The dotdot path element. -/
def dd : List Char := ['.', '.']

/-- The dot path element. -/
def dotE : List Char := ['.']

/-- Split a character list at slashes (the separator is consumed); the second
argument accumulates the current element in reverse. -/
def compsCL : List Char → List Char → List (List Char)
  | [], acc => [acc.reverse]
  | c :: cs, acc => if c = '/' then acc.reverse :: compsCL cs [] else compsCL cs (c :: acc)

/-- Elements of a path string. -/
def comps (s : String) : List (List Char) := compsCL s.data []

/-- Is the character list a rooted (absolute) path? -/
def isAbsCL (l : List Char) : Bool := l.head? = some '/'

/-- filepath.IsAbs. -/
def goIsAbs (s : String) : Bool := isAbsCL s.data

/-- One element step of filepath.Clean over the element stack
(most recent first). -/
def cleanStep (abs : Bool) (st : List (List Char)) (c : List Char) : List (List Char) :=
  if c = [] ∨ c = dotE then st
  else if c = dd then
    match st with
    | [] => if abs then [] else [dd]
    | top :: rest => if top = dd then dd :: top :: rest else rest
  else c :: st

/-- Process a list of path elements onto a Clean stack. -/
def cleanApp (abs : Bool) (cs : List (List Char)) (st : List (List Char)) : List (List Char) :=
  List.foldl (cleanStep abs) st cs

/-- Join path elements with slashes. -/
def joinComps : List (List Char) → List Char
  | [] => []
  | [c] => c
  | c :: c2 :: rest => c ++ '/' :: joinComps (c2 :: rest)

/-- Print a relative cleaned element list (empty means dot). -/
def printRel (cs : List (List Char)) : List Char :=
  if cs = [] then dotE else joinComps cs

/-- Print a rooted cleaned element list. -/
def printAbs (cs : List (List Char)) : List Char := '/' :: joinComps cs

/-- filepath.Clean at the character-list level. -/
def cleanCL (l : List Char) : List Char :=
  if isAbsCL l then printAbs (cleanApp true (compsCL l []) []).reverse
  else printRel (cleanApp false (compsCL l []) []).reverse

/-- filepath.Clean. -/
def goClean (s : String) : String := String.mk (cleanCL s.data)

/-- filepath.Join on two arguments: empty elements are skipped, the joined
text is cleaned. -/
def goJoin2 (a b : String) : String :=
  if a ≠ "" then goClean (a ++ "/" ++ b)
  else if b ≠ "" then goClean b
  else ""

/-- Drop the longest common leading run of two lists, returning both
remainders. -/
def dropCommon : List (List Char) → List (List Char) → List (List Char) × List (List Char)
  | x :: xs, y :: ys => if x = y then dropCommon xs ys else (x :: xs, y :: ys)
  | xs, ys => (xs, ys)

/-- filepath.Rel on Unix: both paths are cleaned; they must agree on being
rooted; after removing the common leading elements, the remaining base
elements must not begin with a dotdot, and the result climbs out of the
remaining base elements and then descends into the remaining target
elements. -/
def goRel (base targ : String) : Except String String :=
  if goIsAbs base ≠ goIsAbs targ then
    Except.error ("Rel: can't make " ++ targ ++ " relative to " ++ base)
  else
    let b := (cleanApp (goIsAbs base) (comps base) []).reverse
    let t := (cleanApp (goIsAbs targ) (comps targ) []).reverse
    let p := dropCommon b t
    if p.1.head? = some dd then
      Except.error ("Rel: can't make " ++ targ ++ " relative to " ++ base)
    else
      Except.ok (String.mk (printRel (List.replicate p.1.length dd ++ p.2)))

/-- filepath.Base at the character-list level: empty input gives dot, trailing
slashes are dropped, the last element is kept, an all-slash path gives the
separator. -/
def baseCL (l : List Char) : List Char :=
  if l = [] then dotE
  else
    let r := l.reverse.dropWhile (fun c => c = '/')
    let b := (r.takeWhile (fun c => c ≠ '/')).reverse
    if b = [] then ['/'] else b

/-- filepath.Base. -/
def goBase (s : String) : String := String.mk (baseCL s.data)

/-- filepath.Dir: everything up to and including the final slash, cleaned. -/
def goDir (s : String) : String :=
  String.mk (cleanCL ((s.data.reverse.dropWhile (fun c => c ≠ '/')).reverse))

/-- Scan for filepath.Ext over the reversed character list: walk back from the
end, stop at a slash with no extension, return from the last dot. -/
def extRevA : List Char → List Char → List Char
  | [], _ => []
  | c :: rest, acc =>
    if c = '/' then []
    else if c = '.' then c :: acc
    else extRevA rest (c :: acc)

/-- filepath.Ext. -/
def goExt (s : String) : String := String.mk (extRevA s.data.reverse [])

/-- filepath.Abs: a rooted path is cleaned; otherwise the working directory
(an environment input, as os.Getwd can fail) is joined in front. -/
def goAbs (getwd : Except String String) (path : String) : Except String String :=
  if goIsAbs path then Except.ok (goClean path)
  else
    match getwd with
    | Except.error e => Except.error e
    | Except.ok wd => Except.ok (goJoin2 wd path)

/-- filepath.ToSlash: on Unix the separator already is the slash, so this is
the identity. -/
def goToSlash (s : String) : String := s

/-! ## Launch Options and runtime variants (pkg/runtime) -/

/-- A bind-mount spec from docker/api/types/mount, restricted to the fields
the runtimes set. -/
structure Mount where
  type : String
  source : String
  target : String
deriving DecidableEq

/-- pkg/runtime LaunchOpts: the inert description of how to start a dev
container.  Fields that a variant leaves unset keep the Go zero value. -/
structure LaunchOpts where
  image : String := ""
  entrypoint : List String := []
  cmd : List String := []
  targetWD : String := ""
  mounts : List Mount := []
deriving DecidableEq

/-- Receiver of the golang runtime variant. -/
structure GolangRuntime where
  rte : String
  handler : String
deriving DecidableEq

/-- Receiver of the python runtime variant. -/
structure PythonRuntime where
  rte : String
  handler : String
deriving DecidableEq

/-- Environment the golang variant reads through collaborators: the module
name of the run context and the toolchain root come from utils.GoModule and
utils.GoPath (repository code outside the sources, each able to fail), the
working directory from os.Getwd, and the operating system name from
runtime.GOOS. -/
structure GoEnv where
  goModule : String → Except String String
  goPath : Except String String
  getwd : Except String String
  goos : String

/-- Modelled from the spec: the common baseline ignore set shared by the
language variants (VCS metadata and local state directories); the definition
of commonIgnore is outside the sources.  It mirrors the literal baseline the
javascript generator spells out. -/
def commonIgnore : List String := [".nitric/", ".git/", ".idea/"]

/-- Modelled from the spec: the control-plane sidecar download reference,
templated in the nitric/(provider)@(version) style and resolved into an
artifact URL by an external collaborator; membraneUrl is outside the
sources. -/
def membraneUrl (version provider : String) : String :=
  "https://artifacts.nitric.io/nitric/" ++ provider ++ "@" ++ version

/-- golang DevImageName: fmt.Sprintf("nitric-%s-dev", t.rte). -/
def golangDevImageName (t : GolangRuntime) : String := "nitric-" ++ t.rte ++ "-dev"

/-- golang BuildIgnore returns an empty pattern list. -/
def golangBuildIgnore (_t : GolangRuntime) : List String := []

/-- golang ContainerName: the handler is made absolute (empty name if that
fails) and the basename of its parent directory is the name. -/
def golangContainerName (env : GoEnv) (t : GolangRuntime) : String :=
  match goAbs env.getwd t.handler with
  | Except.error _ => ""
  | Except.ok absH => goBase (goDir absH)

/-- python DevImageName. -/
def pythonDevImageName (t : PythonRuntime) : String := "nitric-" ++ t.rte ++ "-dev"

/-- python ContainerName: strings.Replace(Base(handler), Ext(handler), "", 1). -/
def pythonContainerName (t : PythonRuntime) : String :=
  goReplaceFirst (goBase t.handler) (goExt t.handler) ""

/-- python BuildIgnore: the baseline plus bytecode-cache patterns. -/
def pythonBuildIgnore (_t : PythonRuntime) : List String :=
  commonIgnore ++ ["__pycache__/", "*.py[cod]", "*$py.class"]

/-- The relative-handler computation inside golang LaunchOptsForFunction:
when the handler string starts with the run context, filepath.Rel is taken,
otherwise the handler is used as is. -/
def golangRelHandler (runCtx handler : String) : Except String String :=
  if strHasPre handler runCtx then goRel runCtx handler else Except.ok handler

/-- golang LaunchOptsForFunctionCollect. -/
def golangLaunchOptsForFunctionCollect (env : GoEnv) (t : GolangRuntime)
    (runCtx : String) : Except String LaunchOpts :=
  match env.goModule runCtx with
  | Except.error e => Except.error e
  | Except.ok module =>
    match env.goPath with
    | Except.error e => Except.error e
    | Except.ok goPath =>
      Except.ok
        { image := golangDevImageName t
          targetWD := goToSlash (goJoin2 "/go/src" module)
          cmd := ["go", "run", "./" ++ goToSlash (goDir t.handler) ++ "/..."]
          mounts :=
            [ { type := "bind", source := goJoin2 goPath "pkg", target := "/go/pkg" },
              { type := "bind", source := runCtx,
                target := goToSlash (goJoin2 "/go/src" module) } ] }

/-- golang LaunchOptsForFunction: the hot-reload run wrapping the handler in
CompileDaemon; the handler is made relative to the run context when it lies
under it. -/
def golangLaunchOptsForFunction (env : GoEnv) (t : GolangRuntime)
    (runCtx : String) : Except String LaunchOpts :=
  match env.goModule runCtx with
  | Except.error e => Except.error e
  | Except.ok module =>
    let containerRunCtx := goToSlash (goJoin2 "/go/src" module)
    match golangRelHandler runCtx t.handler with
    | Except.error e => Except.error e
    | Except.ok relHandler =>
      match env.goPath with
      | Except.error e => Except.error e
      | Except.ok goPath =>
        Except.ok
          { targetWD := containerRunCtx
            cmd :=
              [ "/go/bin/CompileDaemon", "-verbose", "-exclude-dir=.git",
                "-exclude-dir=.nitric", "-directory=.",
                "-polling=" ++ goFormatBool (env.goos = "windows"),
                "-build=go build -buildvcs=false -o " ++ golangContainerName env t
                  ++ " ./" ++ goToSlash (goDir relHandler) ++ "/...",
                "-command=./" ++ golangContainerName env t ]
            mounts :=
              [ { type := "bind", source := goJoin2 goPath "pkg", target := "/go/pkg" },
                { type := "bind", source := runCtx, target := containerRunCtx } ] }

/-- python LaunchOptsForFunctionCollect: one-shot run of the handler with the
run context bind-mounted at /app. -/
def pythonLaunchOptsForFunctionCollect (t : PythonRuntime)
    (runCtx : String) : Except String LaunchOpts :=
  Except.ok
    { image := pythonDevImageName t
      entrypoint := ["python"]
      cmd := ["/app/" ++ goToSlash t.handler]
      targetWD := "/app"
      mounts := [{ type := "bind", source := runCtx, target := "/app" }] }

/-- python LaunchOptsForFunction: the live-patch dev run through jurigged. -/
def pythonLaunchOptsForFunction (t : PythonRuntime)
    (runCtx : String) : Except String LaunchOpts :=
  Except.ok
    { image := pythonDevImageName t
      entrypoint := ["python"]
      cmd := ["-m", "jurigged", "-v", "/app/" ++ goToSlash t.handler]
      targetWD := "/app"
      mounts := [{ type := "bind", source := runCtx, target := "/app" }] }

/-! ## The Dockerfile-builder collaborator and the build recipes -/

/-- Configuration statement options of the builder. -/
structure DFConfig where
  workingDir : String := ""
  env : List (String × String) := []
  ports : List Int := []
  entrypoint : List String := []
  cmd : List String := []

/-- Modelled from the spec: the external Dockerfile-builder collaborator
(boxygen) is an append-only statement emitter holding the lines so far and
the ignore patterns given at container creation; Lines() returns the
statement list. -/
structure DFContainer where
  lines : List String
  ignore : List String

/-- Quote and comma-join an argument vector for exec-form statements. -/
def joinQ : List String → String
  | [] => ""
  | [w] => "\"" ++ w ++ "\""
  | w :: w2 :: rest => "\"" ++ w ++ "\", " ++ joinQ (w2 :: rest)

/-- Modelled from the spec: builder container creation emits the FROM
statement (with a stage name when given) and records the ignore patterns. -/
def dfNewContainer (frm asName : String) (ignore : List String) : DFContainer :=
  { lines := ["FROM " ++ frm ++ (if asName = "" then "" else " as " ++ asName)]
    ignore := ignore }

/-- Modelled from the spec: builder RUN statement. -/
def dfRun (c : DFContainer) (cmd : List String) : DFContainer :=
  { c with lines := c.lines ++ ["RUN " ++ joinSp cmd] }

/-- Modelled from the spec: builder COPY statement. -/
def dfCopy (c : DFContainer) (src dest : String) : DFContainer :=
  { c with lines := c.lines ++ ["COPY " ++ src ++ " " ++ dest] }

/-- Modelled from the spec: builder ADD statement. -/
def dfAdd (c : DFContainer) (src dest : String) : DFContainer :=
  { c with lines := c.lines ++ ["ADD " ++ src ++ " " ++ dest] }

/-- Modelled from the spec: statements emitted by a builder CONFIG call for
the options that are set. -/
def dfConfigLines (o : DFConfig) : List String :=
  (if o.workingDir = "" then [] else ["WORKDIR " ++ o.workingDir]) ++
  (o.env.map (fun kv => "ENV " ++ kv.1 ++ "=" ++ kv.2)) ++
  (o.ports.map (fun p => "EXPOSE " ++ toString p)) ++
  (if o.entrypoint = [] then [] else ["ENTRYPOINT [" ++ joinQ o.entrypoint ++ "]"]) ++
  (if o.cmd = [] then [] else ["CMD [" ++ joinQ o.cmd ++ "]"])

/-- Modelled from the spec: builder CONFIG statement. -/
def dfConfig (c : DFContainer) (o : DFConfig) : DFContainer :=
  { c with lines := c.lines ++ dfConfigLines o }

/-- Modelled from the spec: the name of the logical final build stage; the
constant layerFinal is outside the sources. -/
def layerFinal : String := "final"

/-- Modelled from the spec: withMembrane injects the control-plane sidecar
binary into the image being described, fetched from the versioned,
provider-qualified URL, made executable and configured as the entrypoint;
the definition of withMembrane is outside the sources. -/
def withMembrane (c : DFContainer) (version provider : String) : DFContainer :=
  dfConfig
    (dfRun (dfAdd c (membraneUrl version provider) "/usr/local/bin/membrane")
      ["chmod", "+x-rw", "/usr/local/bin/membrane"])
    { entrypoint := ["/usr/local/bin/membrane"] }

/-- python FunctionDockerfileForCodeAsConfig: the dev recipe (pip upgrade,
jurigged runner, dependency install, full copy, no sidecar). -/
def pythonFunctionDockerfileForCodeAsConfig (t : PythonRuntime) : String :=
  let c0 := dfNewContainer "python:3.9-slim" layerFinal (pythonBuildIgnore t)
  let c1 := dfRun c0 ["pip", "install", "--upgrade", "pip"]
  let c2 := dfConfig c1 { workingDir := "/" }
  let c3 := dfRun c2 ["pip", "install", "jurigged"]
  let c4 := dfCopy c3 "requirements.txt" "requirements.txt"
  let c5 := dfRun c4 ["pip", "install", "--no-cache-dir", "-r", "requirements.txt"]
  let c6 := dfCopy c5 "." "."
  let c7 := dfConfig c6
    { env := [("PYTHONPATH", "/app/:$\x7bPYTHONPATH\x7d")]
      ports := [9001]
      cmd := ["python", t.handler] }
  joinNL c7.lines

/-- python FunctionDockerfile: the production recipe (dependency install,
full copy, sidecar injection, configured environment, port and command). -/
def pythonFunctionDockerfile (t : PythonRuntime)
    (_funcCtxDir version provider : String) : String :=
  let c0 := dfNewContainer "python:3.9-slim" layerFinal (pythonBuildIgnore t)
  let c1 := dfRun c0 ["pip", "install", "--upgrade", "pip"]
  let c2 := dfConfig c1 { workingDir := "/" }
  let c3 := dfCopy c2 "requirements.txt" "requirements.txt"
  let c4 := dfRun c3 ["pip", "install", "--no-cache-dir", "-r", "requirements.txt"]
  let c5 := dfCopy c4 "." "."
  let c6 := withMembrane c5 version provider
  let c7 := dfConfig c6
    { env := [("PYTHONPATH", "/app/:$\x7bPYTHONPATH\x7d")]
      ports := [9001]
      cmd := ["python", t.handler] }
  joinNL c7.lines

/-- Leading text of the golang production Dockerfile template, up to the
first format verb (the handler directory). -/
def prodDockerfileA : String :=
  "# syntax = docker/dockerfile:1.3\nFROM golang:alpine as build\nRUN apk update\nRUN apk upgrade\nRUN apk add --no-cache git gcc g++ make\n\nWORKDIR /app/\n\nCOPY . .\n\nRUN --mount=type=cache,target=/root/.cache/go-build go build -o /bin/main ./"

/-- Middle text of the golang production Dockerfile template, between the
handler directory and the membrane URL. -/
def prodDockerfileB : String :=
  "/...\n\nFROM alpine\n\nRUN apk add --no-cache tzdata\nADD "

/-- Trailing text of the golang production Dockerfile template, after the
membrane URL. -/
def prodDockerfileC : String :=
  " /bin/membrane\nRUN chmod +x /bin/membrane\n\nCOPY --from=build /bin/main /bin/main\n\nRUN chmod +x-rw /bin/main\n\nEXPOSE 9001\n\nENTRYPOINT /bin/membrane\nCMD /bin/main\n"

/-- golang FunctionDockerfile: fmt.Sprintf of the two-stage template with the
handler directory and the membrane URL. -/
def golangFunctionDockerfile (t : GolangRuntime)
    (_funcCtxDir version provider : String) : String :=
  prodDockerfileA ++ goDir t.handler ++ prodDockerfileB
    ++ membraneUrl version provider ++ prodDockerfileC

/-- The golang dev Dockerfile (CompileDaemon tooling image). -/
def golangDevDockerfile : String :=
  "# syntax = docker/dockerfile:1.3\nFROM golang:alpine\n\nRUN apk add --no-cache git\nRUN go install github.com/asalkeld/CompileDaemon@d4b10de\n"

/-! ## Stack function descriptor (pkg/stack) -/

/-- The function descriptor fields the embedded helpers read. -/
structure StackFunction where
  name : String
  tag : String := ""
  handler : String := ""
  version : String := ""
deriving DecidableEq

/-- The stack fields the embedded helpers read. -/
structure Stack where
  name : String
deriving DecidableEq

/-- The default membrane version constant. -/
def defaultMembraneVersion : String := "v0.0.1-rc.3"

/-- Function.VersionString: the explicit version, or the default. -/
def versionString (f : StackFunction) : String :=
  if f.version ≠ "" then f.version else defaultMembraneVersion

/-- Function.ImageTagName: an explicit tag wins; otherwise
stackName-functionName with a -provider suffix when a provider is given. -/
def imageTagName (f : StackFunction) (s : Stack) (provider : String) : String :=
  if f.tag ≠ "" then f.tag
  else
    let providerString := if provider ≠ "" then "-" ++ provider else ""
    s.name ++ "-" ++ f.name ++ providerString

/-- The javascript production generator (pkg functiondockerfile): sidecar
injection, lockfile import, production yarn install, full copy, node
command. -/
def javascriptGenerator (f : StackFunction) (version provider : String) : String :=
  let c0 := dfNewContainer "node:alpine" "" ["node_modules/", ".nitric/", ".git/", ".idea/"]
  let c1 := withMembrane c0 version provider
  let c2 := dfCopy c1 "package.json *.lock *-lock.json" "/"
  let c3 := dfRun c2 ["yarn", "import", "||", "echo", "Lockfile already exists"]
  let c4 := dfRun c3
    ["set", "-ex;", "yarn", "install", "--production", "--frozen-lockfile",
     "--cache-folder", "/tmp/.cache;", "rm", "-rf", "/tmp/.cache;"]
  let c5 := dfCopy c4 "." "."
  let c6 := dfConfig c5 { cmd := ["node", f.handler] }
  joinNL c6.lines

/-! ## Container Engine (pkg containerengine) -/

/-- Backend-reported image data, as listed by the engines. -/
structure Image where
  id : String := ""
  repository : String := ""
  tag : String := ""
  createdAt : String := ""
deriving DecidableEq

/-- Image pull options (payload abstracted: delegation is data-independent). -/
structure PullOpts where
  raw : String := ""
deriving DecidableEq

/-- Container configuration (payload abstracted). -/
structure ContainerConfig where
  raw : String := ""
deriving DecidableEq

/-- Host configuration (payload abstracted). -/
structure HostConfig where
  raw : String := ""
deriving DecidableEq

/-- Network configuration (payload abstracted). -/
structure NetworkConfig where
  raw : String := ""
deriving DecidableEq

/-- Log retrieval options (payload abstracted). -/
structure LogsOpts where
  raw : String := ""
deriving DecidableEq

/-- The wait result body (exit status). -/
structure WaitOKBody where
  statusCode : Int := 0
deriving DecidableEq

/-- The pair of channels returned by ContainerWait, modelled as the streams
of values each channel will deliver. -/
structure WaitChans where
  results : List WaitOKBody := []
  errs : List String := []
deriving DecidableEq

/-- A container log-driver configuration. -/
structure LogConfig where
  type : String
  config : List (String × String)
deriving DecidableEq

/-- A ContainerLogger: the log-driver configuration plus the outcomes of its
start and stop hooks (none means the hook succeeds as a no-op). -/
structure ContainerLogger where
  logConfig : LogConfig
  startErr : Option String := none
  stopErr : Option String := none
deriving DecidableEq

/-- The native-API docker engine variant.  Its implementation is repository
code outside the sources (the spec notes an undisclosed native-API shim), so
it is held abstract: one field per contract operation, with arbitrary
behavior. -/
structure DockerEngine where
  listImages : String → String → Except String (List Image)
  imagePull : String → PullOpts → Except String Unit
  containerCreate : ContainerConfig → HostConfig → NetworkConfig → String →
    Except String String
  start : String → Except String Unit
  stop : String → Option Int → Except String Unit
  containerWait : String → String → WaitChans
  removeByLabel : List (String × String) → Except String Unit
  containerLogs : String → LogsOpts → Except String String
  logger : String → ContainerLogger
  version : String

/-- The delegating (podman) engine variant: a wrapper embedding the docker
variant. -/
structure Podman where
  docker : DockerEngine

/-- The jsonfile ContainerLogger the podman variant builds: a json-file log
driver pointing at the given path, with no-op start and stop hooks. -/
def jsonfileLogger (logPath : String) : ContainerLogger :=
  { logConfig := { type := "json-file", config := [("path", logPath)] } }

/-- podman.Type. -/
def podmanType (_p : Podman) : String := "podman"

/-- podman.Version delegates. -/
def podmanVersion (p : Podman) : String := p.docker.version

/-- podman.ListImages delegates. -/
def podmanListImages (p : Podman) (stackName containerName : String) :
    Except String (List Image) :=
  p.docker.listImages stackName containerName

/-- podman.ImagePull delegates. -/
def podmanImagePull (p : Podman) (rawImage : String) (opts : PullOpts) :
    Except String Unit :=
  p.docker.imagePull rawImage opts

/-- podman.ContainerCreate delegates. -/
def podmanContainerCreate (p : Podman) (config : ContainerConfig)
    (hostConfig : HostConfig) (networkingConfig : NetworkConfig)
    (name : String) : Except String String :=
  p.docker.containerCreate config hostConfig networkingConfig name

/-- podman.Start delegates. -/
def podmanStart (p : Podman) (nameOrID : String) : Except String Unit :=
  p.docker.start nameOrID

/-- podman.Stop delegates. -/
def podmanStop (p : Podman) (nameOrID : String) (timeout : Option Int) :
    Except String Unit :=
  p.docker.stop nameOrID timeout

/-- podman.ContainerWait delegates. -/
def podmanContainerWait (p : Podman) (containerID condition : String) :
    WaitChans :=
  p.docker.containerWait containerID condition

/-- podman.RemoveByLabel delegates. -/
def podmanRemoveByLabel (p : Podman) (labels : List (String × String)) :
    Except String Unit :=
  p.docker.removeByLabel labels

/-- podman.ContainerLogs delegates. -/
def podmanContainerLogs (p : Podman) (containerID : String) (opts : LogsOpts) :
    Except String String :=
  p.docker.containerLogs containerID opts

/-- podman.Logger: builds a jsonfile logger over the nitric log file of the
stack path (utils.NewNitricLogFile is repository code outside the sources:
it resolves a log-file path and may also report an error, which the source
discards). -/
def podmanLogger (nitricLogFile : String → String × Option String)
    (_p : Podman) (stackPath : String) : ContainerLogger :=
  jsonfileLogger (nitricLogFile stackPath).1

/-- The argument vector podman.Build passes to the podman command-line tool:
build, the context path, -f recipe, -t lower-cased tag, then one
"--build-arg" pair per build argument, formatted with fmt.Sprint (not
Sprintf) applied to "%s=%s", the key and the value.  The unordered Go map is
modelled as an association list in iteration order. -/
def podmanBuildArgs (dockerfile path imageTag : String)
    (buildArgs : List (String × String)) : List String :=
  List.foldl (fun args kv => args ++ ["--build-arg", goSprint3 "%s=%s" kv.1 kv.2])
    ["build", path, "-f", dockerfile, "-t", goToLower imageTag] buildArgs

/-- What the probes and the client construction find when newPodman runs. -/
structure PodmanProbeEnv where
  podmanVersionProbe : Except String Unit
  dockerVersionOut : Except String String
  newClient : Except String DockerEngine
  containerList : DockerEngine → Except String Unit

/-- newPodman: requires the podman tool to answer its version probe, requires
the docker command to exist (the podman-docker shim), rejects the ambiguous
case where the docker version output does not mention podman (then the real
docker CLI is installed too), then builds the client and tests the
connection. -/
def newPodman (env : PodmanProbeEnv) : Except String Podman :=
  match env.podmanVersionProbe with
  | Except.error e => Except.error e
  | Except.ok _ =>
    match env.dockerVersionOut with
    | Except.error e => Except.error ("the podman-docker package is required: " ++ e)
    | Except.ok out =>
      if goContains out "podman" = false then
        Except.error "both podman and docker found, will use docker"
      else
        match env.newClient with
        | Except.error e => Except.error e
        | Except.ok cli =>
          match env.containerList cli with
          | Except.error e => Except.error e
          | Except.ok _ => Except.ok { docker := cli }

/-! ## Claim formalizations -/

/-- The name the claim about ContainerName describes for the python variant:
the basename of the handler with its extension stripped from the end. -/
def basenameWithoutExtension (h : String) : String :=
  (goBase h).dropRight (goExt h).length

/-- The Launch Options invariant of the mount claim: some mount's container
target equals the declared target working directory or is a leading part of
it, and every mount is a bind mount. -/
def launchMountInvariant (o : LaunchOpts) : Prop :=
  (∃ m, m ∈ o.mounts ∧ (m.target = o.targetWD ∨ strHasPre o.targetWD m.target = true))
  ∧ ∀ m, m ∈ o.mounts → m.type = "bind"

/-- A probe environment in which both podman and the real docker CLI answer. -/
def probeEnvBoth : PodmanProbeEnv :=
  { podmanVersionProbe := Except.ok ()
    dockerVersionOut := Except.ok "Docker version 20.10.11, build dea9396"
    newClient := Except.error "client not reached"
    containerList := fun _ => Except.ok () }

/-- A docker engine whose Logger is not a json-file logger (the native
variant is free to configure its own backend-appropriate driver). -/
def syslogDocker : DockerEngine :=
  { listImages := fun _ _ => Except.ok []
    imagePull := fun _ _ => Except.ok ()
    containerCreate := fun _ _ _ _ => Except.ok "cid"
    start := fun _ => Except.ok ()
    stop := fun _ _ => Except.ok ()
    containerWait := fun _ _ => {}
    removeByLabel := fun _ => Except.ok ()
    containerLogs := fun _ _ => Except.ok ""
    logger := fun _ => { logConfig := { type := "syslog", config := [] } }
    version := "20.10.11" }


/-- C1: podman.Build forwards each build argument through fmt.Sprint applied
to a format string, so the pair passed after "--build-arg" is the literal
verb text followed by key and value, not key=value; the image tag is
lower-cased as claimed.  Concrete run: recipe Dockerfile, context ctx, tag
MyTag, build arguments FOO=bar. -/
theorem c1_sprint_build_arg :
    podmanBuildArgs "Dockerfile" "ctx" "MyTag" [("FOO", "bar")]
      = ["build", "ctx", "-f", "Dockerfile", "-t", "mytag",
         "--build-arg", "%s=%sFOObar"]
    ∧ "FOO=bar" ∉ podmanBuildArgs "Dockerfile" "ctx" "MyTag" [("FOO", "bar")] := by
  decide

/-- C2 counterexample: the golang variant returns an empty BuildIgnore list,
so it misses the baseline pattern .git/ that commonIgnore carries. -/
theorem c2_golang_ignore_missing_baseline :
    ".git/" ∈ commonIgnore
    ∧ ".git/" ∉ golangBuildIgnore { rte := "go", handler := "functions/main.go" } := by
  decide

/-- C2 amended: the python variant's BuildIgnore contains every element of
the common baseline set and is stable across calls and instances; the golang
variant's BuildIgnore is stable too, but it is the empty list, so it
contains no baseline element. -/
theorem c2_build_ignore_amended :
    ∀ (t t2 : PythonRuntime) (g g2 : GolangRuntime),
      commonIgnore.all (fun x => decide (x ∈ pythonBuildIgnore t)) = true
      ∧ pythonBuildIgnore t = pythonBuildIgnore t2
      ∧ golangBuildIgnore g = golangBuildIgnore g2
      ∧ golangBuildIgnore g = [] := by
  intro t t2 g g2
  exact ⟨rfl, rfl, rfl, rfl⟩

/-- C4: when the podman probe succeeds but the docker version output does not
mention podman, both tools are installed, and newPodman fails with the
descriptive error instead of returning an engine. -/
theorem c4_both_found_fails (env : PodmanProbeEnv) (out : String)
    (h1 : env.podmanVersionProbe = Except.ok ())
    (h2 : env.dockerVersionOut = Except.ok out)
    (h3 : goContains out "podman" = false) :
    newPodman env = Except.error "both podman and docker found, will use docker" := by
  unfold newPodman
  rw [h1, h2]
  simp [h3]

/-- C4 witness: the concrete ambiguous environment indeed fails construction
with the both-found error. -/
theorem c4_both_found_fails_witness :
    newPodman probeEnvBoth
      = Except.error "both podman and docker found, will use docker" :=
  c4_both_found_fails probeEnvBoth "Docker version 20.10.11, build dea9396"
    rfl rfl (by decide)

/-- C5 counterexample: Logger is NOT delegated — the podman variant builds
its own json-file logger from the stack path, so on an embedded docker
variant whose Logger answers a syslog configuration the results differ. -/
theorem c5_logger_not_delegated :
    podmanLogger (fun s => (s ++ "/nitric.log", none)) { docker := syslogDocker } "stk"
      ≠ syslogDocker.logger "stk" := by
  decide

/-- C5 amended: every contract operation other than Build and Logger
(ListImages, ImagePull, ContainerCreate, Start, Stop, ContainerWait,
RemoveByLabel, ContainerLogs) returns exactly the embedded docker variant's
result; Logger instead constructs a json-file logger from the nitric log
file of the stack path. -/
theorem c5_delegation_amended :
    ∀ (p : Podman),
      (∀ a b, podmanListImages p a b = p.docker.listImages a b)
      ∧ (∀ r o, podmanImagePull p r o = p.docker.imagePull r o)
      ∧ (∀ c h n s, podmanContainerCreate p c h n s = p.docker.containerCreate c h n s)
      ∧ (∀ i, podmanStart p i = p.docker.start i)
      ∧ (∀ i t, podmanStop p i t = p.docker.stop i t)
      ∧ (∀ i c, podmanContainerWait p i c = p.docker.containerWait i c)
      ∧ (∀ l, podmanRemoveByLabel p l = p.docker.removeByLabel l)
      ∧ (∀ i o, podmanContainerLogs p i o = p.docker.containerLogs i o)
      ∧ (∀ nlf s, podmanLogger nlf p s = jsonfileLogger (nlf s).1) := by
  intro p
  exact ⟨fun _ _ => rfl, fun _ _ => rfl, fun _ _ _ _ => rfl, fun _ => rfl,
    fun _ _ => rfl, fun _ _ => rfl, fun _ => rfl, fun _ _ => rfl, fun _ _ => rfl⟩

/-- C7: for the python runtime with handler functions/hello.py the dev
Launch Options run the jurigged live-patch wrapper on /app/functions/hello.py,
work in /app, and bind-mount the run context at /app, for every run context
and runtime tag. -/
theorem c7_python_dev_launch_opts :
    ∀ (rte runCtx : String),
      ∃ opts,
        pythonLaunchOptsForFunction { rte := rte, handler := "functions/hello.py" } runCtx
          = Except.ok opts
        ∧ opts.cmd = ["-m", "jurigged", "-v", "/app/functions/hello.py"]
        ∧ opts.targetWD = "/app"
        ∧ opts.mounts = [{ type := "bind", source := runCtx, target := "/app" }] := by
  intro rte runCtx
  exact ⟨_, rfl, rfl, rfl, rfl⟩

/-- C10: an explicit function tag wins unchanged; otherwise the tag is
stack-function with a provider suffix exactly when the provider string is
non-empty. -/
theorem c10_image_tag_name :
    ∀ (f : StackFunction) (s : Stack) (provider : String),
      (f.tag ≠ "" → imageTagName f s provider = f.tag)
      ∧ (f.tag = "" → provider ≠ "" →
          imageTagName f s provider = s.name ++ "-" ++ f.name ++ "-" ++ provider)
      ∧ (f.tag = "" → provider = "" →
          imageTagName f s provider = s.name ++ "-" ++ f.name) := by
  intro f s provider
  refine ⟨fun h1 => ?_, fun h1 h2 => ?_, fun h1 h2 => ?_⟩
  · simp [imageTagName, h1]
  · simp [imageTagName, h1, h2, String.append_assoc]
  · simp [imageTagName, h1, h2]

/-- C10 witness: concrete checks of all three branches. -/
theorem c10_image_tag_name_witness :
    imageTagName { name := "fn", tag := "custom" } { name := "stk" } "aws" = "custom"
    ∧ imageTagName { name := "fn" } { name := "stk" } "aws" = "stk-fn-aws"
    ∧ imageTagName { name := "fn" } { name := "stk" } "" = "stk-fn" :=
  ⟨(c10_image_tag_name { name := "fn", tag := "custom" } { name := "stk" } "aws").1
      (by decide),
   (c10_image_tag_name { name := "fn" } { name := "stk" } "aws").2.1 rfl (by decide),
   (c10_image_tag_name { name := "fn" } { name := "stk" } "").2.2 rfl rfl⟩

/-! ## Substring lemmas for the recipe claims -/

theorem hasPrefCL_append (p t : List Char) : hasPrefCL (p ++ t) p = true := by
  induction p with
  | nil => cases t <;> rfl
  | cons c cs ih => simp [hasPrefCL, ih]

theorem subScan_here (l sub : List Char) (h : hasPrefCL l sub = true) :
    subScan l sub = true := by
  cases l with
  | nil =>
    cases sub with
    | nil => rfl
    | cons p ps => simp [hasPrefCL] at h
  | cons c rest => simp [subScan, h]

theorem subScan_append_left (a l sub : List Char) (h : subScan l sub = true) :
    subScan (a ++ l) sub = true := by
  induction a with
  | nil => simpa
  | cons c cs ih => simp [subScan, ih]

theorem subScan_of_split (l sub x y : List Char) (h : l = x ++ sub ++ y) :
    subScan l sub = true := by
  subst h
  rw [List.append_assoc]
  exact subScan_append_left x (sub ++ y) sub (subScan_here _ _ (hasPrefCL_append sub y))

theorem goContains_of_split (s sub : String) (x y : List Char)
    (h : s.data = x ++ sub.data ++ y) : goContains s sub = true :=
  subScan_of_split s.data sub.data x y h

theorem joinNL_split (c : String) (cs : List String) (h : c ∈ cs) :
    ∃ x y, (joinNL cs).data = x ++ c.data ++ y := by
  induction cs with
  | nil => cases h
  | cons c0 rest ih =>
    cases h with
    | head =>
      cases rest with
      | nil => exact ⟨[], [], by simp [joinNL]⟩
      | cons r rs =>
        exact ⟨[], ("\n" ++ joinNL (r :: rs)).data, by
          simp [joinNL, String.data_append, List.append_assoc]⟩
    | tail _ hmem =>
      cases rest with
      | nil => cases hmem
      | cons r rs =>
        obtain ⟨x, y, hx⟩ := ih hmem
        exact ⟨(c0 ++ "\n").data ++ x, y, by
          simp [joinNL, String.data_append, hx, List.append_assoc]⟩

theorem goContains_joinNL (cs : List String) (line sub : String) (hm : line ∈ cs)
    (u v : List Char) (h : line.data = u ++ sub.data ++ v) :
    goContains (joinNL cs) sub = true := by
  obtain ⟨x, y, hx⟩ := joinNL_split line cs hm
  refine goContains_of_split _ _ (x ++ u) (v ++ y) ?_
  rw [hx, h]
  simp [List.append_assoc]

/-- The python production recipe as an explicit statement list. -/
theorem pythonFunctionDockerfile_lines (t : PythonRuntime)
    (ctx version provider : String) :
    pythonFunctionDockerfile t ctx version provider = joinNL
      ["FROM python:3.9-slim as final",
       "RUN pip install --upgrade pip",
       "WORKDIR /",
       "COPY requirements.txt requirements.txt",
       "RUN pip install --no-cache-dir -r requirements.txt",
       "COPY . .",
       "ADD " ++ membraneUrl version provider ++ " " ++ "/usr/local/bin/membrane",
       "RUN chmod +x-rw /usr/local/bin/membrane",
       "ENTRYPOINT [\"/usr/local/bin/membrane\"]",
       "ENV PYTHONPATH=/app/:$\x7bPYTHONPATH\x7d",
       "EXPOSE 9001",
       "CMD [" ++ joinQ ["python", t.handler] ++ "]"] := rfl

/-- The javascript production recipe as an explicit statement list. -/
theorem javascriptGenerator_lines (f : StackFunction) (version provider : String) :
    javascriptGenerator f version provider = joinNL
      ["FROM node:alpine",
       "ADD " ++ membraneUrl version provider ++ " " ++ "/usr/local/bin/membrane",
       "RUN chmod +x-rw /usr/local/bin/membrane",
       "ENTRYPOINT [\"/usr/local/bin/membrane\"]",
       "COPY package.json *.lock *-lock.json /",
       "RUN yarn import || echo Lockfile already exists",
       "RUN set -ex; yarn install --production --frozen-lockfile --cache-folder /tmp/.cache; rm -rf /tmp/.cache;",
       "COPY . .",
       "CMD [" ++ joinQ ["node", f.handler] ++ "]"] := rfl

/-- C3 counterexample: the javascript production recipe has no exposed-port
statement for 9001 at concrete inputs (handler functions/hello.js, version
v1.2.3, provider aws), though the claim requires one for every language
variant. -/
theorem c3_javascript_no_exposed_port :
    goContains
      (javascriptGenerator { name := "fn", handler := "functions/hello.js" }
        "v1.2.3" "aws")
      "EXPOSE 9001" = false := by
  decide

/-- C3 amended: for all inputs, the golang and python production recipes each
contain an exposed-port statement for 9001, a copy of the full build context
and the sidecar URL built from version and provider; the javascript
generator's recipe contains the context copy and the sidecar URL, but its
exposed-port statement is missing. -/
theorem c3_production_recipe_amended :
    ∀ (g : GolangRuntime) (p : PythonRuntime) (f : StackFunction)
      (ctx version provider : String),
      goContains (golangFunctionDockerfile g ctx version provider) "EXPOSE 9001" = true
      ∧ goContains (golangFunctionDockerfile g ctx version provider) "COPY . ." = true
      ∧ goContains (golangFunctionDockerfile g ctx version provider)
          (membraneUrl version provider) = true
      ∧ goContains (pythonFunctionDockerfile p ctx version provider) "EXPOSE 9001" = true
      ∧ goContains (pythonFunctionDockerfile p ctx version provider) "COPY . ." = true
      ∧ goContains (pythonFunctionDockerfile p ctx version provider)
          (membraneUrl version provider) = true
      ∧ goContains (javascriptGenerator f version provider) "COPY . ." = true
      ∧ goContains (javascriptGenerator f version provider)
          (membraneUrl version provider) = true := by
  intro g p f ctx version provider
  have hdata : (golangFunctionDockerfile g ctx version provider).data
      = prodDockerfileA.data ++ ((goDir g.handler).data ++ (prodDockerfileB.data
        ++ ((membraneUrl version provider).data ++ prodDockerfileC.data))) := by
    simp [golangFunctionDockerfile, String.data_append, List.append_assoc]
  refine ⟨?_, ?_, ?_, ?_, ?_, ?_, ?_, ?_⟩
  · show subScan (golangFunctionDockerfile g ctx version provider).data
      ("EXPOSE 9001").data = true
    rw [hdata]
    refine subScan_append_left _ _ _ ?_
    refine subScan_append_left _ _ _ ?_
    refine subScan_append_left _ _ _ ?_
    refine subScan_append_left _ _ _ ?_
    decide
  · refine goContains_of_split _ _
      ("# syntax = docker/dockerfile:1.3\nFROM golang:alpine as build\nRUN apk update\nRUN apk upgrade\nRUN apk add --no-cache git gcc g++ make\n\nWORKDIR /app/\n\n").data
      (("\n\nRUN --mount=type=cache,target=/root/.cache/go-build go build -o /bin/main ./").data
        ++ ((goDir g.handler).data ++ (prodDockerfileB.data
          ++ ((membraneUrl version provider).data ++ prodDockerfileC.data)))) ?_
    rw [hdata]
    have ha : prodDockerfileA.data
        = ("# syntax = docker/dockerfile:1.3\nFROM golang:alpine as build\nRUN apk update\nRUN apk upgrade\nRUN apk add --no-cache git gcc g++ make\n\nWORKDIR /app/\n\n").data
          ++ ("COPY . .").data
          ++ ("\n\nRUN --mount=type=cache,target=/root/.cache/go-build go build -o /bin/main ./").data := by
      decide
    rw [ha]
    simp [List.append_assoc]
  · refine goContains_of_split _ _
      (prodDockerfileA.data ++ ((goDir g.handler).data ++ prodDockerfileB.data))
      prodDockerfileC.data ?_
    rw [hdata]
    simp [List.append_assoc]
  · rw [pythonFunctionDockerfile_lines]
    refine goContains_joinNL _ "EXPOSE 9001" _ ?_ [] [] (by simp)
    repeat first | exact List.Mem.head _ | apply List.Mem.tail
  · rw [pythonFunctionDockerfile_lines]
    refine goContains_joinNL _ "COPY . ." _ ?_ [] [] (by simp)
    repeat first | exact List.Mem.head _ | apply List.Mem.tail
  · rw [pythonFunctionDockerfile_lines]
    refine goContains_joinNL _
      ("ADD " ++ membraneUrl version provider ++ " " ++ "/usr/local/bin/membrane") _
      ?_ ("ADD ").data ((" " ++ "/usr/local/bin/membrane").data)
      (by simp [String.data_append, List.append_assoc])
    repeat first | exact List.Mem.head _ | apply List.Mem.tail
  · rw [javascriptGenerator_lines]
    refine goContains_joinNL _ "COPY . ." _ ?_ [] [] (by simp)
    repeat first | exact List.Mem.head _ | apply List.Mem.tail
  · rw [javascriptGenerator_lines]
    refine goContains_joinNL _
      ("ADD " ++ membraneUrl version provider ++ " " ++ "/usr/local/bin/membrane") _
      ?_ ("ADD ").data ((" " ++ "/usr/local/bin/membrane").data)
      (by simp [String.data_append, List.append_assoc])
    repeat first | exact List.Mem.head _ | apply List.Mem.tail

/-- C8: every Launch Options value any of the four launch functions returns
has a mount whose container target equals the declared target working
directory (here: is equal outright), and all mounts are bind mounts. -/
theorem c8_mount_target_invariant :
    ∀ (env : GoEnv) (g : GolangRuntime) (p : PythonRuntime) (runCtx : String)
      (o : LaunchOpts),
      (golangLaunchOptsForFunction env g runCtx = Except.ok o → launchMountInvariant o)
      ∧ (golangLaunchOptsForFunctionCollect env g runCtx = Except.ok o →
          launchMountInvariant o)
      ∧ (pythonLaunchOptsForFunction p runCtx = Except.ok o → launchMountInvariant o)
      ∧ (pythonLaunchOptsForFunctionCollect p runCtx = Except.ok o →
          launchMountInvariant o) := by
  intro env g p runCtx o
  refine ⟨?_, ?_, ?_, ?_⟩
  · intro h
    unfold golangLaunchOptsForFunction at h
    cases hM : env.goModule runCtx with
    | error e => rw [hM] at h; cases h
    | ok module =>
      rw [hM] at h
      cases hR : golangRelHandler runCtx g.handler with
      | error e => simp only [hR] at h; cases h
      | ok rel =>
        simp only [hR] at h
        cases hP : env.goPath with
        | error e => rw [hP] at h; cases h
        | ok gp =>
          rw [hP] at h
          injection h with h2
          subst h2
          refine ⟨⟨_, List.mem_cons_of_mem _ (List.mem_cons_self _ _), Or.inl rfl⟩, ?_⟩
          intro m hm
          simp only [List.mem_cons, List.not_mem_nil, or_false] at hm
          rcases hm with rfl | rfl <;> rfl
  · intro h
    unfold golangLaunchOptsForFunctionCollect at h
    cases hM : env.goModule runCtx with
    | error e => rw [hM] at h; cases h
    | ok module =>
      rw [hM] at h
      cases hP : env.goPath with
      | error e => rw [hP] at h; cases h
      | ok gp =>
        rw [hP] at h
        injection h with h2
        subst h2
        refine ⟨⟨_, List.mem_cons_of_mem _ (List.mem_cons_self _ _), Or.inl rfl⟩, ?_⟩
        intro m hm
        simp only [List.mem_cons, List.not_mem_nil, or_false] at hm
        rcases hm with rfl | rfl <;> rfl
  · intro h
    injection h with h2
    subst h2
    refine ⟨⟨_, List.mem_cons_self _ _, Or.inl rfl⟩, ?_⟩
    intro m hm
    simp only [List.mem_cons, List.not_mem_nil, or_false] at hm
    rcases hm with rfl
    rfl
  · intro h
    injection h with h2
    subst h2
    refine ⟨⟨_, List.mem_cons_self _ _, Or.inl rfl⟩, ?_⟩
    intro m hm
    simp only [List.mem_cons, List.not_mem_nil, or_false] at hm
    rcases hm with rfl
    rfl

/-- C8 witness: the invariant holds on the concrete Launch Options the four
functions produce for a golang module example.com/app under run context /ctx
and a python handler functions/hello.py. -/
theorem c8_mount_target_invariant_witness :
    launchMountInvariant
      { image := ""
        entrypoint := []
        cmd := ["/go/bin/CompileDaemon", "-verbose", "-exclude-dir=.git",
                "-exclude-dir=.nitric", "-directory=.", "-polling=false",
                "-build=go build -buildvcs=false -o hello ./functions/hello/...",
                "-command=./hello"]
        targetWD := "/go/src/example.com/app"
        mounts := [{ type := "bind", source := "/home/u/go/pkg", target := "/go/pkg" },
                   { type := "bind", source := "/ctx", target := "/go/src/example.com/app" }] }
    ∧ launchMountInvariant
      { image := "nitric-go-dev"
        entrypoint := []
        cmd := ["go", "run", "./functions/hello/..."]
        targetWD := "/go/src/example.com/app"
        mounts := [{ type := "bind", source := "/home/u/go/pkg", target := "/go/pkg" },
                   { type := "bind", source := "/ctx", target := "/go/src/example.com/app" }] }
    ∧ launchMountInvariant
      { image := "nitric-python-dev"
        entrypoint := ["python"]
        cmd := ["-m", "jurigged", "-v", "/app/functions/hello.py"]
        targetWD := "/app"
        mounts := [{ type := "bind", source := "/ctx", target := "/app" }] }
    ∧ launchMountInvariant
      { image := "nitric-python-dev"
        entrypoint := ["python"]
        cmd := ["/app/functions/hello.py"]
        targetWD := "/app"
        mounts := [{ type := "bind", source := "/ctx", target := "/app" }] } :=
  ⟨(c8_mount_target_invariant
      ⟨fun _ => Except.ok "example.com/app", Except.ok "/home/u/go",
        Except.ok "/home/u", "linux"⟩
      ⟨"go", "/ctx/functions/hello/main.go"⟩ ⟨"python", "functions/hello.py"⟩
      "/ctx" _).1 rfl,
   (c8_mount_target_invariant
      ⟨fun _ => Except.ok "example.com/app", Except.ok "/home/u/go",
        Except.ok "/home/u", "linux"⟩
      ⟨"go", "functions/hello/main.go"⟩ ⟨"python", "functions/hello.py"⟩
      "/ctx" _).2.1 rfl,
   (c8_mount_target_invariant
      ⟨fun _ => Except.ok "example.com/app", Except.ok "/home/u/go",
        Except.ok "/home/u", "linux"⟩
      ⟨"go", "functions/hello/main.go"⟩ ⟨"python", "functions/hello.py"⟩
      "/ctx" _).2.2.1 rfl,
   (c8_mount_target_invariant
      ⟨fun _ => Except.ok "example.com/app", Except.ok "/home/u/go",
        Except.ok "/home/u", "linux"⟩
      ⟨"go", "functions/hello/main.go"⟩ ⟨"python", "functions/hello.py"⟩
      "/ctx" _).2.2.2 rfl⟩

/-- C9 counterexample: the python ContainerName removes the FIRST occurrence
of the extension text from the basename, so for handler dir/a.gob.go (whose
extension .go also occurs inside .gob) it returns ab.go, which is not the
basename without its extension (a.gob). -/
theorem c9_python_name_not_basename_without_ext :
    pythonContainerName { rte := "python", handler := "dir/a.gob.go" } = "ab.go"
    ∧ basenameWithoutExtension "dir/a.gob.go" = "a.gob"
    ∧ pythonContainerName { rte := "python", handler := "dir/a.gob.go" }
        ≠ basenameWithoutExtension "dir/a.gob.go" := by
  decide

/-- C9 amended: ContainerName never signals an error.  For golang the name is
empty exactly when the handler is relative and the working-directory lookup
fails, and otherwise it is the basename of the parent directory of the
resolved absolute handler; for python the name is the basename with the first
occurrence of the extension text removed (which is the basename without its
extension whenever that text occurs only at the end). -/
theorem c9_container_name_amended :
    ∀ (env : GoEnv) (t : GolangRuntime) (p : PythonRuntime) (e wd : String),
      (env.getwd = Except.error e → goIsAbs t.handler = false →
        golangContainerName env t = "")
      ∧ (goIsAbs t.handler = true →
          golangContainerName env t = goBase (goDir (goClean t.handler)))
      ∧ (env.getwd = Except.ok wd → goIsAbs t.handler = false →
          golangContainerName env t = goBase (goDir (goJoin2 wd t.handler)))
      ∧ pythonContainerName p
          = goReplaceFirst (goBase p.handler) (goExt p.handler) "" := by
  intro env t p e wd
  refine ⟨fun h1 h2 => ?_, fun h1 => ?_, fun h1 h2 => ?_, rfl⟩
  · unfold golangContainerName goAbs
    rw [h2, h1]
    simp
  · unfold golangContainerName goAbs
    rw [h1]
    simp
  · unfold golangContainerName goAbs
    rw [h2, h1]
    simp

/-- C9 witness: concrete checks of the three golang branches and the python
branch. -/
theorem c9_container_name_amended_witness :
    golangContainerName
      ⟨fun _ => Except.ok "", Except.ok "", Except.error "getwd failed", "linux"⟩
      { rte := "go", handler := "functions/hello/main.go" } = ""
    ∧ golangContainerName
        ⟨fun _ => Except.ok "", Except.ok "", Except.error "getwd failed", "linux"⟩
        { rte := "go", handler := "/abs/functions/hello/main.go" }
        = goBase (goDir (goClean "/abs/functions/hello/main.go"))
    ∧ golangContainerName
        ⟨fun _ => Except.ok "", Except.ok "", Except.ok "/home/u", "linux"⟩
        { rte := "go", handler := "functions/hello/main.go" }
        = goBase (goDir (goJoin2 "/home/u" "functions/hello/main.go"))
    ∧ pythonContainerName { rte := "python", handler := "functions/hello.py" }
        = goReplaceFirst (goBase "functions/hello.py") (goExt "functions/hello.py") "" :=
  ⟨(c9_container_name_amended
      ⟨fun _ => Except.ok "", Except.ok "", Except.error "getwd failed", "linux"⟩
      { rte := "go", handler := "functions/hello/main.go" }
      { rte := "python", handler := "functions/hello.py" }
      "getwd failed" "").1 rfl (by decide),
   (c9_container_name_amended
      ⟨fun _ => Except.ok "", Except.ok "", Except.error "getwd failed", "linux"⟩
      { rte := "go", handler := "/abs/functions/hello/main.go" }
      { rte := "python", handler := "functions/hello.py" }
      "getwd failed" "").2.1 (by decide),
   (c9_container_name_amended
      ⟨fun _ => Except.ok "", Except.ok "", Except.ok "/home/u", "linux"⟩
      { rte := "go", handler := "functions/hello/main.go" }
      { rte := "python", handler := "functions/hello.py" }
      "" "/home/u").2.2.1 rfl (by decide),
   (c9_container_name_amended
      ⟨fun _ => Except.ok "", Except.ok "", Except.ok "/home/u", "linux"⟩
      { rte := "go", handler := "functions/hello/main.go" }
      { rte := "python", handler := "functions/hello.py" }
      "" "/home/u").2.2.2⟩

theorem headq_append (a x : List Char) (h : a ≠ []) : (a ++ x).head? = a.head? := by
  cases a with
  | nil => exact absurd rfl h
  | cons c cs => rfl

theorem comps_append (b : List Char) :
    ∀ (a acc : List Char), compsCL (a ++ '/' :: b) acc = compsCL a acc ++ compsCL b [] := by
  intro a
  induction a with
  | nil => intro acc; simp [compsCL]
  | cons c a2 ih =>
    intro acc
    by_cases hc : c = '/'
    · subst hc
      simp [compsCL, ih]
    · simp [compsCL, hc, ih]

theorem cleanApp_append (abs : Bool) (cs1 cs2 : List (List Char)) (st : List (List Char)) :
    cleanApp abs (cs1 ++ cs2) st = cleanApp abs cs2 (cleanApp abs cs1 st) :=
  List.foldl_append _ _ _ _

theorem cleanApp_cons (abs : Bool) (c : List Char) (cs : List (List Char))
    (st : List (List Char)) :
    cleanApp abs (c :: cs) st = cleanApp abs cs (cleanStep abs st c) := rfl

/-- Processing a dotdot-free element list onto a Clean stack only skips or
pushes: the result stacks a sublist of the plain elements on top, and those
elements are nonempty and are not dot elements. -/
theorem cleanApp_no_dd (abs : Bool) :
    ∀ (cs : List (List Char)), dd ∉ cs → ∀ (st : List (List Char)),
      ∃ q : List (List Char), cleanApp abs cs st = q.reverse ++ st
        ∧ (∀ c ∈ q, ¬(c = [] ∨ c = dotE)) ∧ (∀ c ∈ q, c ∈ cs) := by
  intro cs
  induction cs with
  | nil =>
    intro _ st
    exact ⟨[], rfl, fun c hc => absurd hc (List.not_mem_nil c),
      fun c hc => absurd hc (List.not_mem_nil c)⟩
  | cons c cs2 ih =>
    intro hdd st
    have hcdd : c ≠ dd := fun h => hdd (h ▸ List.mem_cons_self c cs2)
    have hdd2 : dd ∉ cs2 := fun h => hdd (List.mem_cons_of_mem c h)
    by_cases hskip : c = [] ∨ c = dotE
    · obtain ⟨q, hq, hel, hsub⟩ := ih hdd2 (cleanStep abs st c)
      have hstep : cleanStep abs st c = st := by
        unfold cleanStep
        simp [hskip]
      refine ⟨q, ?_, hel, fun x hx => List.mem_cons_of_mem c (hsub x hx)⟩
      rw [hstep] at hq
      rw [cleanApp_cons, hstep]
      exact hq
    · have hstep : cleanStep abs st c = c :: st := by
        unfold cleanStep
        simp [hskip, hcdd]
      obtain ⟨q2, hq2, hel2, hsub2⟩ := ih hdd2 (c :: st)
      refine ⟨c :: q2, ?_, ?_, ?_⟩
      · rw [cleanApp_cons, hstep, hq2]
        simp
      · intro x hx
        rcases List.mem_cons.mp hx with rfl | hx2
        · exact hskip
        · exact hel2 x hx2
      · intro x hx
        rcases List.mem_cons.mp hx with rfl | hx2
        · exact List.mem_cons_self _ _
        · exact List.mem_cons_of_mem c (hsub2 x hx2)

/-- Pushing plain nonempty, non-dot, non-dotdot elements onto a Clean stack
just stacks them. -/
theorem cleanApp_plain (abs : Bool) :
    ∀ (q : List (List Char)), (∀ c ∈ q, ¬(c = [] ∨ c = dotE) ∧ c ≠ dd) →
      ∀ st, cleanApp abs q st = q.reverse ++ st := by
  intro q
  induction q with
  | nil => intro _ st; rfl
  | cons c q2 ih =>
    intro hel st
    have h1 := hel c (List.mem_cons_self c q2)
    have hstep : cleanStep abs st c = c :: st := by
      unfold cleanStep
      simp [h1.1, h1.2]
    rw [cleanApp_cons, hstep, ih (fun x hx => hel x (List.mem_cons_of_mem c hx)) (c :: st)]
    simp

theorem dropCommon_self (x y : List (List Char)) : dropCommon x (x ++ y) = ([], y) := by
  induction x with
  | nil => cases y <;> rfl
  | cons c xs ih => simp [dropCommon, ih]

theorem comps_no_slash : ∀ (l acc : List Char), '/' ∉ acc →
    ∀ c ∈ compsCL l acc, '/' ∉ c := by
  intro l
  induction l with
  | nil =>
    intro acc hacc c hc
    simp [compsCL] at hc
    subst hc
    simpa using hacc
  | cons ch l2 ih =>
    intro acc hacc c hc
    by_cases hch : ch = '/'
    · subst hch
      simp [compsCL] at hc
      rcases hc with rfl | hc2
      · simpa using hacc
      · exact ih [] (by simp) c hc2
    · rw [show compsCL (ch :: l2) acc = compsCL l2 (ch :: acc) from by simp [compsCL, hch]] at hc
      refine ih (ch :: acc) ?_ c hc
      intro hmem
      rcases List.mem_cons.mp hmem with h | h
      · exact hch h.symm
      · exact hacc h

theorem compsCL_of_no_slash : ∀ (c acc : List Char), '/' ∉ c →
    compsCL c acc = [acc.reverse ++ c] := by
  intro c
  induction c with
  | nil => intro acc _; simp [compsCL]
  | cons ch c2 ih =>
    intro acc hns
    have hch : ch ≠ '/' := fun h => hns (h ▸ List.mem_cons_self ch c2)
    rw [show compsCL (ch :: c2) acc = compsCL c2 (ch :: acc) from by simp [compsCL, hch],
      ih (ch :: acc) (fun h => hns (List.mem_cons_of_mem ch h))]
    simp

theorem comps_joinComps : ∀ (q : List (List Char)), q ≠ [] →
    (∀ c ∈ q, c ≠ [] ∧ '/' ∉ c) → compsCL (joinComps q) [] = q := by
  intro q
  induction q with
  | nil => intro h _; exact absurd rfl h
  | cons c q2 ih =>
    intro _ hel
    cases q2 with
    | nil =>
      rw [show joinComps [c] = c from rfl,
        compsCL_of_no_slash c [] (hel c (List.mem_cons_self _ _)).2]
      rfl
    | cons c2 r =>
      rw [show joinComps (c :: c2 :: r) = c ++ '/' :: joinComps (c2 :: r) from rfl,
        comps_append _ _ _,
        compsCL_of_no_slash c [] (hel c (List.mem_cons_self _ _)).2,
        ih (by simp) (fun x hx => hel x (List.mem_cons_of_mem c hx))]
      rfl

theorem joinComps_headq (c : List Char) (q2 : List (List Char)) (h : c ≠ []) :
    (joinComps (c :: q2)).head? = c.head? := by
  cases q2 with
  | nil => rfl
  | cons c2 r => exact headq_append c ('/' :: joinComps (c2 :: r)) h

theorem isAbs_printRel (q : List (List Char))
    (hel : ∀ c ∈ q, c ≠ [] ∧ '/' ∉ c) : isAbsCL (printRel q) = false := by
  cases q with
  | nil => rfl
  | cons c q2 =>
    have h1 := hel c (List.mem_cons_self c q2)
    unfold printRel isAbsCL
    rw [if_neg (by simp), joinComps_headq c q2 h1.1]
    cases c with
    | nil => exact absurd rfl h1.1
    | cons ch cc =>
      have hch : ch ≠ '/' := fun h => h1.2 (h ▸ List.mem_cons_self ch cc)
      simp [hch]

theorem goRel_of_stack (base targ : String) (q : List (List Char))
    (habs2 : goIsAbs targ = goIsAbs base)
    (hstack : cleanApp (goIsAbs targ) (comps targ) [] =
      q.reverse ++ cleanApp (goIsAbs base) (comps base) []) :
    goRel base targ = Except.ok (String.mk (printRel q)) := by
  rw [habs2] at hstack
  unfold goRel
  rw [habs2, hstack, if_neg (fun h => h rfl)]
  simp only [List.reverse_append, List.reverse_reverse]
  rw [dropCommon_self]
  simp

/-- C6: when the handler lies inside the run context directory (it is the
run context, a slash, then a relative path with no parent-directory element,
and the run context is non-empty), the relative handler computed inside
golang LaunchOptsForFunction exists, is never an absolute path, and joining
the run context with it gives back the handler up to path normalization. -/
theorem c6_rel_handler_roundtrip (runCtx rest handler : String)
    (hh : handler = runCtx ++ "/" ++ rest)
    (hne : runCtx ≠ "")
    (hdd : dd ∉ comps rest) :
    ∃ r, golangRelHandler runCtx handler = Except.ok r
      ∧ goIsAbs r = false
      ∧ goJoin2 runCtx r = goClean handler := by
  subst hh
  have hane : runCtx.data ≠ [] := by
    intro h
    apply hne
    cases runCtx with
    | mk l =>
      simp only [String.data] at h
      rw [h]
  have hdata : (runCtx ++ "/" ++ rest).data = runCtx.data ++ '/' :: rest.data := by
    simp [String.data_append]
  have habs : goIsAbs (runCtx ++ "/" ++ rest) = goIsAbs runCtx := by
    unfold goIsAbs isAbsCL
    rw [hdata, headq_append _ _ hane]
  have hpre : strHasPre (runCtx ++ "/" ++ rest) runCtx = true := by
    unfold strHasPre
    rw [hdata]
    exact hasPrefCL_append runCtx.data ('/' :: rest.data)
  have hcomps : comps (runCtx ++ "/" ++ rest) = comps runCtx ++ comps rest := by
    unfold comps
    rw [hdata]
    exact comps_append rest.data runCtx.data []
  obtain ⟨q, hq, hqel, hqsub⟩ :=
    cleanApp_no_dd (goIsAbs runCtx) (comps rest) hdd
      (cleanApp (goIsAbs runCtx) (comps runCtx) [])
  have hqsl : ∀ c ∈ q, c ≠ [] ∧ '/' ∉ c := by
    intro c hc
    exact ⟨fun h => hqel c hc (Or.inl h),
      comps_no_slash rest.data [] (by simp) c (hqsub c hc)⟩
  have hqdd : ∀ c ∈ q, c ≠ dd := fun c hc h => hdd (h ▸ hqsub c hc)
  have hstack : cleanApp (goIsAbs (runCtx ++ "/" ++ rest))
      (comps (runCtx ++ "/" ++ rest)) []
      = q.reverse ++ cleanApp (goIsAbs runCtx) (comps runCtx) [] := by
    rw [habs, hcomps, cleanApp_append, hq]
  have hrel : goRel runCtx (runCtx ++ "/" ++ rest)
      = Except.ok (String.mk (printRel q)) :=
    goRel_of_stack runCtx (runCtx ++ "/" ++ rest) q habs hstack
  have hpr : ∀ (ab : Bool) (st : List (List Char)),
      cleanApp ab (compsCL (printRel q) []) st = q.reverse ++ st := by
    intro ab st
    cases q with
    | nil =>
      show cleanApp ab (compsCL dotE []) st = [] ++ st
      simp [compsCL, dotE, cleanApp, cleanStep]
    | cons c q2 =>
      rw [show printRel (c :: q2) = joinComps (c :: q2) from by
          unfold printRel; rw [if_neg (by simp)],
        comps_joinComps (c :: q2) (by simp) hqsl,
        cleanApp_plain ab (c :: q2) (fun x hx => ⟨hqel x hx, hqdd x hx⟩) st]
  refine ⟨String.mk (printRel q), ?_, ?_, ?_⟩
  · unfold golangRelHandler
    rw [hpre, if_pos rfl]
    exact hrel
  · unfold goIsAbs
    show isAbsCL (printRel q) = false
    exact isAbs_printRel q hqsl
  · unfold goJoin2
    rw [if_pos hne]
    unfold goClean
    apply congrArg String.mk
    have hq2 : cleanApp (isAbsCL runCtx.data) (compsCL rest.data [])
        (cleanApp (isAbsCL runCtx.data) (compsCL runCtx.data []) [])
        = q.reverse ++ cleanApp (isAbsCL runCtx.data) (compsCL runCtx.data []) [] := hq
    have hd2 : (runCtx ++ "/" ++ String.mk (printRel q)).data
        = runCtx.data ++ '/' :: printRel q := by
      simp [String.data_append]
    rw [hd2, hdata]
    unfold cleanCL
    have h1 : isAbsCL (runCtx.data ++ '/' :: printRel q) = isAbsCL runCtx.data := by
      unfold isAbsCL
      rw [headq_append _ _ hane]
    have h2 : isAbsCL (runCtx.data ++ '/' :: rest.data) = isAbsCL runCtx.data := by
      unfold isAbsCL
      rw [headq_append _ _ hane]
    rw [h1, h2,
      comps_append (printRel q) runCtx.data [], comps_append rest.data runCtx.data []]
    cases habs0 : isAbsCL runCtx.data with
    | true =>
      rw [habs0] at hq2
      simp only [habs0, eq_self_iff_true, if_true]
      rw [cleanApp_append, cleanApp_append, hpr true, hq2]
    | false =>
      rw [habs0] at hq2
      rw [if_neg (by simp), if_neg (by simp), cleanApp_append, cleanApp_append,
        hpr false, hq2]

/-- C6 witness: the concrete handler /home/user/project/functions/hello/main.go
inside run context /home/user/project. -/
theorem c6_rel_handler_roundtrip_witness :
    ∃ r, golangRelHandler "/home/user/project"
        "/home/user/project/functions/hello/main.go" = Except.ok r
      ∧ goIsAbs r = false
      ∧ goJoin2 "/home/user/project" r
          = goClean "/home/user/project/functions/hello/main.go" :=
  c6_rel_handler_roundtrip "/home/user/project" "functions/hello/main.go"
    "/home/user/project/functions/hello/main.go"
    (by decide) (by decide) (by decide)
